import Mathlib

/-
Verification of the native dependency locator implemented in `conanfile.py`
(`_walk_to_marker`, `_discover_mkl_paths`, `_mkl_paths_from_pip_venv` and
the surrounding glue in `generate`).

Shallow embedding conventions:
* A filesystem path is a list of components, deepest component first;
  the empty list is the filesystem root (whose pathlib parent is itself).
* `lowerString` models `str.lower()` (ASCII, which is all that appears here).
* `suffixOfName` models `pathlib.PurePath.suffix` on a file name: the part of
  the name from its last dot, empty when the last dot is the first or last
  character of the name, or absent.
* The process environment is an association list; `scrub` models the
  `Environment()` with `unset("PYTHONPATH"); unset("PYTHONHOME")` applied
  for the scope of a subprocess call (conan restores the previous values
  when the `with ... .apply()` block exits).
* External effects (the pip install subprocess, the fresh-interpreter
  metadata query, `Path.is_dir()` checks) are modelled by a `World` record
  supplying their observable outcomes, and each subprocess invocation is
  recorded in a trace together with the environment it ran under.
-/

namespace PycanhaMkl

/-- ASCII lowering of a string, modelling Python `str.lower()` on the
ASCII names that occur in the recipe. -/
def lowerString (s : String) : String :=
  String.mk (s.toList.map Char.toLower)

/-- Does `hay` start with `needle`? (helper for substring containment). -/
def beginsWith : List Char → List Char → Bool
  | [], _ => true
  | _ :: _, [] => false
  | a :: as, b :: bs => a == b && beginsWith as bs

/-- Does `needle` occur contiguously inside `hay`? -/
def containsSeq (needle : List Char) : List Char → Bool
  | [] => beginsWith needle []
  | c :: cs => beginsWith needle (c :: cs) || containsSeq needle cs

/-- Python `needle in hay` on strings (substring containment). -/
def containsSub (needle hay : String) : Bool :=
  containsSeq needle.toList hay.toList

/-- Helper for `suffixOfName`: walks the reversed character list of a file
name; `acc` holds the characters already passed, in original order. -/
def suffixRevAux (acc : List Char) : List Char → List Char
  | [] => []
  | c :: rest =>
      if c = '.' then
        if acc = [] then []
        else if rest = [] then []
        else '.' :: acc
      else suffixRevAux (c :: acc) rest

/-- `pathlib.PurePath.suffix` of a file name: the substring from the last
dot, except when that dot is the first or the last character. -/
def suffixOfName (s : String) : String :=
  String.mk (suffixRevAux [] s.toList.reverse)

/-- A filesystem path: components deepest-first; `[]` is the root. -/
abbrev FsPath := List String

/-- `pathlib.PurePath.name`: the final component (empty at the root). -/
def nameOf : FsPath → String
  | [] => ""
  | n :: _ => n

/-- `pathlib.PurePath.parent`: drop the final component; the root is its
own parent. -/
def parentOf : FsPath → FsPath
  | [] => []
  | _ :: rest => rest

/-- `pathlib.PurePath.suffix` of a path. -/
def suffixOf (p : FsPath) : String :=
  suffixOfName (nameOf p)

/-- The operating systems distinguished by the recipe
(`self.settings.os == "Windows"` vs everything else). -/
inductive OSName where
  | windows
  | linux
  | macos
deriving DecidableEq

/-- `_walk_to_marker(start, markers)`: walk up from `start` until a
directory whose lowercased name is in `markers` is found; the root itself
is never examined; returns `none` when no ancestor matches. -/
def walkToMarker (markers : List String) : FsPath → Option FsPath
  | [] => none
  | c :: cs =>
      if lowerString c ∈ markers then some (c :: cs)
      else walkToMarker markers cs

/-- The mutable scan state of the manifest loop in `_discover_mkl_paths`:
`include_dir = lib_dir = bin_dir = None` initially. -/
structure ScanState where
  include_dir : Option FsPath
  lib_dir : Option FsPath
  bin_dir : Option FsPath
deriving DecidableEq

/-- `if not include_dir and suffix == ".h": include_dir = walk(p.parent, include)`. -/
def stepInclude (st : ScanState) (p : FsPath) : ScanState :=
  if st.include_dir = none ∧ lowerString (suffixOf p) = ".h" then
    { st with include_dir := walkToMarker ["include"] (parentOf p) }
  else st

/-- Windows: `if not lib_dir and suffix == ".lib" and "mkl" in name_lower`. -/
def stepLibWin (st : ScanState) (p : FsPath) : ScanState :=
  if st.lib_dir = none ∧ lowerString (suffixOf p) = ".lib" ∧
      containsSub "mkl" (lowerString (nameOf p)) = true then
    { st with lib_dir := walkToMarker ["lib"] (parentOf p) }
  else st

/-- Non-Windows: `if not lib_dir and suffix in (".so", ".dylib")`. -/
def stepLibUnix (st : ScanState) (p : FsPath) : ScanState :=
  if st.lib_dir = none ∧
      (lowerString (suffixOf p) = ".so" ∨ lowerString (suffixOf p) = ".dylib") then
    { st with lib_dir := walkToMarker ["lib"] (parentOf p) }
  else st

/-- Both platforms: `if not bin_dir and suffix == ".dll" and "mkl" in name_lower`. -/
def stepBinDll (st : ScanState) (p : FsPath) : ScanState :=
  if st.bin_dir = none ∧ lowerString (suffixOf p) = ".dll" ∧
      containsSub "mkl" (lowerString (nameOf p)) = true then
    { st with bin_dir := walkToMarker ["bin"] (parentOf p) }
  else st

/-- One iteration of the manifest loop in `_discover_mkl_paths` for one
file path: the header assignment, then the platform branch. -/
def scanStep (os : OSName) (st : ScanState) (p : FsPath) : ScanState :=
  if os = OSName.windows then
    stepBinDll (stepLibWin (stepInclude st p) p) p
  else
    stepBinDll (stepLibUnix (stepInclude st p) p) p

/-- `if include_dir and lib_dir and (bin_dir or self.settings.os != "Windows"): break`. -/
def breakCond (os : OSName) (st : ScanState) : Bool :=
  st.include_dir.isSome && st.lib_dir.isSome &&
    (st.bin_dir.isSome || !(decide (os = OSName.windows)))

/-- The manifest loop: process the files in manifest order, stopping early
when the break condition holds after an iteration. -/
def scanLoop (os : OSName) : ScanState → List FsPath → ScanState
  | st, [] => st
  | st, p :: rest =>
      if breakCond os (scanStep os st p) then scanStep os st p
      else scanLoop os (scanStep os st p) rest

/-- The initial scan state (all three directories `None`). -/
def initScan : ScanState := ⟨none, none, none⟩

/-- `candidate_root`: parent of the first of include/lib/bin that was set. -/
def candidateRoot (st : ScanState) : Option FsPath :=
  match st.include_dir with
  | some i => some (parentOf i)
  | none =>
    match st.lib_dir with
    | some l => some (parentOf l)
    | none =>
      match st.bin_dir with
      | some b => some (parentOf b)
      | none => none

/-- The filesystem known to the locator: the set of existing directories
(the observable outcomes of the `Path.is_dir()` calls). -/
def isDir (fs : List FsPath) (p : FsPath) : Bool :=
  fs.contains p

/-- `maybe = candidate_root / nm; if maybe.is_dir(): ... = maybe`. -/
def fallbackDir (fs : List FsPath) (nm : String) (root : Option FsPath) : Option FsPath :=
  match root with
  | some r => if isDir fs (nm :: r) = true then some (nm :: r) else none
  | none => none

/-- `include_dir` after the `candidate_root / "include"` fallback. -/
def finalInclude (fs : List FsPath) (st : ScanState) : Option FsPath :=
  match st.include_dir with
  | some i => some i
  | none => fallbackDir fs "include" (candidateRoot st)

/-- `lib_dir` after the `candidate_root / "lib"` fallback. -/
def finalLib (fs : List FsPath) (st : ScanState) : Option FsPath :=
  match st.lib_dir with
  | some l => some l
  | none => fallbackDir fs "lib" (candidateRoot st)

/-- `bin_dir` after its fallback: on Windows (with a candidate root) the
`candidate_root / "bin"` directory if it exists, otherwise the
(post-fallback) `lib_dir`. -/
def finalBin (os : OSName) (fs : List FsPath) (st : ScanState) : Option FsPath :=
  match st.bin_dir with
  | some b => some b
  | none =>
    if os = OSName.windows ∧ (candidateRoot st).isSome = true then
      fallbackDir fs "bin" (candidateRoot st)
    else
      finalLib fs st

/-- The result of a successful discovery: the four directories returned by
`_discover_mkl_paths` (`mklroot, include_dir, lib_dir, bin_dir`). -/
structure Located where
  root : FsPath
  includeDir : FsPath
  libDir : FsPath
  binDir : FsPath
deriving DecidableEq

/-- The tail of `_discover_mkl_paths` after the manifest loop: fallbacks,
the `include_dir`/`lib_dir` guard, `mklroot = include_dir.parent` and the
final `bin_dir = lib_dir` default. -/
def finishScan (os : OSName) (fs : List FsPath) (st : ScanState) : Option Located :=
  match finalInclude fs st, finalLib fs st with
  | some i, some l => some ⟨parentOf i, i, l, (finalBin os fs st).getD l⟩
  | some _, none => none
  | none, _ => none

/-- `_discover_mkl_paths`, given the observable outcome of the fresh
metadata-query subprocess (`queryOk` is `result.returncode == 0`,
`manifest` the parsed stdout lines). -/
def discoverMklPaths (os : OSName) (fs : List FsPath) (queryOk : Bool)
    (manifest : List FsPath) : Option Located :=
  if queryOk = true then finishScan os fs (scanLoop os initScan manifest)
  else none

/-- A process environment: an association list of variable bindings. -/
abbrev Env := List (String × String)

/-- The two interpreter-search-path variables the locator unsets. -/
def scrubbedName (k : String) : Bool :=
  k == "PYTHONPATH" || k == "PYTHONHOME"

/-- The environment view during an `env_reset.vars(self).apply()` block:
`PYTHONPATH` and `PYTHONHOME` removed, all other bindings untouched. -/
def scrub (e : Env) : Env :=
  e.filter (fun kv => !(scrubbedName kv.1))

/-- First-match lookup in an environment. -/
def envLookup (k : String) : Env → Option String
  | [] => none
  | kv :: rest => if kv.1 = k then some kv.2 else envLookup k rest

/-- A subprocess invocation made by the locator, with the environment it
ran under: the pip install (`self.run`) or the metadata query. -/
inductive Call where
  | run (cmd : String) (env : Env)
  | query (env : Env)
deriving DecidableEq

/-- The environment a recorded subprocess call ran under. -/
def callEnv : Call → Env
  | Call.run _ e => e
  | Call.query e => e

/-- Is a recorded call the pip install invocation? -/
def isRunCall : Call → Bool
  | Call.run _ _ => true
  | Call.query _ => false

/-- Number of pip install invocations in a trace. -/
def runCount (t : List Call) : Nat :=
  (t.filter isRunCall).length

/-- Observable behavior of the outside world during one resolution:
`sys.executable`, the pip install exit code and raw output, the metadata
query outcome, and the directories that exist on disk. -/
structure World where
  pythonExe : String
  installExit : Nat
  installOutput : String
  queryOk : Bool
  manifest : List FsPath
  fs : List FsPath

/-- The pip command issued by `_mkl_paths_from_pip_venv`:
`"{sys.executable}" -m pip install "mkl-devel=={version}"`. -/
def pipInstallCmd (exe version : String) : String :=
  "\"" ++ exe ++ "\" -m pip install \"mkl-devel==" ++ version ++ "\""

/-- The error conan raises when `self.run` sees a non-zero exit code
(modelled from conan's documented `Error <ret> while executing <cmd>`). -/
def runFailureMsg (ret : Nat) (cmd : String) : String :=
  "Error " ++ toString ret ++ " while executing " ++ cmd

/-- The `ConanInvalidConfiguration` message raised when discovery finds
nothing after installation (verbatim from the source). -/
def notFoundMsg (version : String) : String :=
  "MKL directories not found after installing mkl-devel==" ++ version

/-- Outcome of `_mkl_paths_from_pip_venv`: the returned value or the
raised error, the subprocess trace, and the ambient environment after the
call (the scoped `apply()` blocks restore it on every path). -/
structure VenvResult where
  result : Except String (Option Located)
  trace : List Call
  finalEnv : Env

/-- `_mkl_paths_from_pip_venv`: return `None` when the MKL option is off;
otherwise run pip install under the scrubbed environment (a non-zero exit
raises), then `_discover_mkl_paths` (whose query also runs under a
scrubbed environment), raising `ConanInvalidConfiguration` when discovery
returns `None`. -/
def mklPathsFromPipVenv (useMkl : Bool) (version : String) (os : OSName)
    (env : Env) (w : World) : VenvResult :=
  if useMkl = false then ⟨Except.ok none, [], env⟩
  else if w.installExit = 0 then
    match discoverMklPaths os w.fs w.queryOk w.manifest with
    | some loc =>
        ⟨Except.ok (some loc),
          [Call.run (pipInstallCmd w.pythonExe version) (scrub env),
            Call.query (scrub env)], env⟩
    | none =>
        ⟨Except.error (notFoundMsg version),
          [Call.run (pipInstallCmd w.pythonExe version) (scrub env),
            Call.query (scrub env)], env⟩
  else
    ⟨Except.error (runFailureMsg w.installExit (pipInstallCmd w.pythonExe version)),
      [Call.run (pipInstallCmd w.pythonExe version) (scrub env)], env⟩

/-! Helper lemmas about the embedded operations. -/

/-- The upward walk fails exactly when no component of the start path has a
lowercased name in the marker set (the root is never examined). -/
theorem walkToMarker_eq_none_iff (ms : List String) (l : FsPath) :
    walkToMarker ms l = none ↔ ∀ c ∈ l, lowerString c ∉ ms := by
  induction l with
  | nil => simp [walkToMarker]
  | cons c cs ih =>
      by_cases h : lowerString c ∈ ms
      · simp [walkToMarker, h]
      · simp [walkToMarker, h, ih]

/-- The header assignment never touches `lib_dir`. -/
theorem stepInclude_lib (st : ScanState) (p : FsPath) :
    (stepInclude st p).lib_dir = st.lib_dir := by
  unfold stepInclude; split <;> rfl

/-- The header assignment never touches `bin_dir`. -/
theorem stepInclude_bin (st : ScanState) (p : FsPath) :
    (stepInclude st p).bin_dir = st.bin_dir := by
  unfold stepInclude; split <;> rfl

/-- The Windows library assignment never touches `include_dir`. -/
theorem stepLibWin_inc (st : ScanState) (p : FsPath) :
    (stepLibWin st p).include_dir = st.include_dir := by
  unfold stepLibWin; split <;> rfl

/-- The Windows library assignment never touches `bin_dir`. -/
theorem stepLibWin_bin (st : ScanState) (p : FsPath) :
    (stepLibWin st p).bin_dir = st.bin_dir := by
  unfold stepLibWin; split <;> rfl

/-- The Unix library assignment never touches `include_dir`. -/
theorem stepLibUnix_inc (st : ScanState) (p : FsPath) :
    (stepLibUnix st p).include_dir = st.include_dir := by
  unfold stepLibUnix; split <;> rfl

/-- The Unix library assignment never touches `bin_dir`. -/
theorem stepLibUnix_bin (st : ScanState) (p : FsPath) :
    (stepLibUnix st p).bin_dir = st.bin_dir := by
  unfold stepLibUnix; split <;> rfl

/-- The dll assignment never touches `include_dir`. -/
theorem stepBinDll_inc (st : ScanState) (p : FsPath) :
    (stepBinDll st p).include_dir = st.include_dir := by
  unfold stepBinDll; split <;> rfl

/-- The dll assignment never touches `lib_dir`. -/
theorem stepBinDll_lib (st : ScanState) (p : FsPath) :
    (stepBinDll st p).lib_dir = st.lib_dir := by
  unfold stepBinDll; split <;> rfl

/-- On either platform, `include_dir` is updated exactly as by the header
assignment. -/
theorem scanStep_inc (os : OSName) (st : ScanState) (p : FsPath) :
    (scanStep os st p).include_dir = (stepInclude st p).include_dir := by
  by_cases ho : os = OSName.windows
  · rw [scanStep, if_pos ho, stepBinDll_inc, stepLibWin_inc]
  · rw [scanStep, if_neg ho, stepBinDll_inc, stepLibUnix_inc]

/-- A file whose lowercased suffix is not ".dll" never changes `bin_dir`. -/
theorem scanStep_bin_of_ne (os : OSName) (st : ScanState) (p : FsPath)
    (h : lowerString (suffixOf p) ≠ ".dll") :
    (scanStep os st p).bin_dir = st.bin_dir := by
  have hb : ∀ st2 : ScanState, (stepBinDll st2 p).bin_dir = st2.bin_dir := by
    intro st2
    unfold stepBinDll
    rw [if_neg (fun hc => h hc.2.1)]
  by_cases ho : os = OSName.windows
  · rw [scanStep, if_pos ho, hb, stepLibWin_bin, stepInclude_bin]
  · rw [scanStep, if_neg ho, hb, stepLibUnix_bin, stepInclude_bin]

/-- If the manifest holds no ".dll" entry and `bin_dir` starts unset, it is
still unset after the whole manifest loop. -/
theorem scanLoop_bin_none (os : OSName) (m : List FsPath) :
    ∀ st : ScanState, (∀ p ∈ m, lowerString (suffixOf p) ≠ ".dll") →
      st.bin_dir = none → (scanLoop os st m).bin_dir = none := by
  induction m with
  | nil => intro st _ h0; exact h0
  | cons p rest ih =>
      intro st hm h0
      have hb : (scanStep os st p).bin_dir = none := by
        rw [scanStep_bin_of_ne os st p (hm p (List.mem_cons_self p rest))]
        exact h0
      simp only [scanLoop]
      split
      · exact hb
      · exact ih (scanStep os st p) (fun q hq => hm q (List.mem_cons_of_mem p hq)) hb

/-- The break condition is false while `lib_dir` is unset. -/
theorem breakCond_no_lib (os : OSName) (st : ScanState) (h : st.lib_dir = none) :
    breakCond os st = false := by
  unfold breakCond
  rw [h]
  simp

/-- On a non-Windows platform, a manifest entry that is neither a header
candidate nor a library or dll candidate (lowercased suffix not ".h",
".so", ".dylib" or ".dll") leaves the scan state unchanged. -/
theorem scanStep_inert (os : OSName) (st : ScanState) (p : FsPath)
    (ho : os ≠ OSName.windows)
    (hp : lowerString (suffixOf p) ∉ ([".h", ".so", ".dylib", ".dll"] : List String)) :
    scanStep os st p = st := by
  have h1 : stepInclude st p = st := by
    unfold stepInclude
    exact if_neg (fun hc => hp (by rw [hc.2]; decide))
  have h2 : stepLibUnix st p = st := by
    unfold stepLibUnix
    refine if_neg (fun hc => hp ?_)
    rcases hc.2 with h | h <;> rw [h] <;> decide
  have h3 : stepBinDll st p = st := by
    unfold stepBinDll
    exact if_neg (fun hc => hp (by rw [hc.2.1]; decide))
  rw [scanStep, if_neg ho, h1, h2, h3]

/-- On a non-Windows platform, a block of inert manifest entries (no
header, library or dll candidates) can be dropped from the front of the
loop, as long as the loop would not already have stopped. -/
theorem scanLoop_inert_block (os : OSName) (ho : os ≠ OSName.windows) :
    ∀ xs : List FsPath,
      (∀ p ∈ xs, lowerString (suffixOf p) ∉ ([".h", ".so", ".dylib", ".dll"] : List String)) →
      ∀ (st : ScanState) (rest : List FsPath), breakCond os st = false →
        scanLoop os st (xs ++ rest) = scanLoop os st rest := by
  intro xs
  induction xs with
  | nil => intro _ st rest _; rfl
  | cons p xs ih =>
      intro hxs st rest hb
      have hs : scanStep os st p = st :=
        scanStep_inert os st p ho (hxs p (List.mem_cons_self p xs))
      have hunf : scanLoop os st ((p :: xs) ++ rest)
          = if breakCond os (scanStep os st p) = true then scanStep os st p
            else scanLoop os (scanStep os st p) (xs ++ rest) := rfl
      rw [hunf, hs, hb, if_neg (show ¬(false = true) by decide)]
      exact ih (fun q hq => hxs q (List.mem_cons_of_mem p hq)) st rest hb

/-- A scrubbed variable is absent from the scrubbed environment view. -/
theorem envLookup_scrub_scrubbed (k : String) (hk : scrubbedName k = true) (e : Env) :
    envLookup k (scrub e) = none := by
  induction e with
  | nil => rfl
  | cons kv rest ih =>
      by_cases hs : scrubbedName kv.1 = true
      · have hdrop : scrub (kv :: rest) = scrub rest := by
          simp [scrub, List.filter_cons, hs]
        rw [hdrop, ih]
      · have hkeep : scrub (kv :: rest) = kv :: scrub rest := by
          simp [scrub, List.filter_cons, hs]
        have hne : kv.1 ≠ k := fun he => hs (he ▸ hk)
        rw [hkeep]
        simp only [envLookup, if_neg hne]
        exact ih

/-- Any variable other than the two scrubbed ones has the same value in
the scrubbed view as in the original environment. -/
theorem envLookup_scrub_of_ne (k : String) (e : Env)
    (h1 : k ≠ "PYTHONPATH") (h2 : k ≠ "PYTHONHOME") :
    envLookup k (scrub e) = envLookup k e := by
  induction e with
  | nil => rfl
  | cons kv rest ih =>
      by_cases hs : scrubbedName kv.1 = true
      · have hdrop : scrub (kv :: rest) = scrub rest := by
          simp [scrub, List.filter_cons, hs]
        have hne : kv.1 ≠ k := by
          intro he
          rcases (by simpa [scrubbedName] using hs : kv.1 = "PYTHONPATH" ∨ kv.1 = "PYTHONHOME")
            with h | h
          · exact h1 (he ▸ h)
          · exact h2 (he ▸ h)
        rw [hdrop, ih]
        simp only [envLookup, if_neg hne]
      · have hkeep : scrub (kv :: rest) = kv :: scrub rest := by
          simp [scrub, List.filter_cons, hs]
        rw [hkeep]
        by_cases hq : kv.1 = k
        · simp only [envLookup, if_pos hq]
        · simp only [envLookup, if_neg hq]
          exact ih

/-- Boolean truth values differ (used to discharge the enabled guard). -/
theorem bool_true_ne_false : ¬(true = false) := by decide

/-- Branch lemma: enabled, pip install fails. -/
theorem venv_install_fail (v : String) (os : OSName) (e : Env) (w : World)
    (hz : w.installExit ≠ 0) :
    mklPathsFromPipVenv true v os e w
      = ⟨Except.error (runFailureMsg w.installExit (pipInstallCmd w.pythonExe v)),
          [Call.run (pipInstallCmd w.pythonExe v) (scrub e)], e⟩ := by
  unfold mklPathsFromPipVenv
  rw [if_neg bool_true_ne_false, if_neg hz]

/-- Branch lemma: enabled, install succeeds, discovery succeeds. -/
theorem venv_ok_some (v : String) (os : OSName) (e : Env) (w : World) (loc : Located)
    (hz : w.installExit = 0)
    (hd : discoverMklPaths os w.fs w.queryOk w.manifest = some loc) :
    mklPathsFromPipVenv true v os e w
      = ⟨Except.ok (some loc),
          [Call.run (pipInstallCmd w.pythonExe v) (scrub e), Call.query (scrub e)], e⟩ := by
  unfold mklPathsFromPipVenv
  rw [if_neg bool_true_ne_false, if_pos hz, hd]

/-- Branch lemma: enabled, install succeeds, discovery finds nothing. -/
theorem venv_err_none (v : String) (os : OSName) (e : Env) (w : World)
    (hz : w.installExit = 0)
    (hd : discoverMklPaths os w.fs w.queryOk w.manifest = none) :
    mklPathsFromPipVenv true v os e w
      = ⟨Except.error (notFoundMsg v),
          [Call.run (pipInstallCmd w.pythonExe v) (scrub e), Call.query (scrub e)], e⟩ := by
  unfold mklPathsFromPipVenv
  rw [if_neg bool_true_ne_false, if_pos hz, hd]

/-- The ambient environment after `_mkl_paths_from_pip_venv` equals the
environment before it, on every control path (the scoped `apply()` blocks
restore it, including when an error is raised). -/
theorem venv_finalEnv (u : Bool) (v : String) (os : OSName) (e : Env) (w : World) :
    (mklPathsFromPipVenv u v os e w).finalEnv = e := by
  cases u
  · rfl
  · by_cases hz : w.installExit = 0
    · cases hd : discoverMklPaths os w.fs w.queryOk w.manifest
      · rw [venv_err_none v os e w hz hd]
      · rw [venv_ok_some v os e w _ hz hd]
    · rw [venv_install_fail v os e w hz]

/-- Every subprocess recorded by `_mkl_paths_from_pip_venv` ran under the
scrubbed environment view. -/
theorem venv_trace_env (u : Bool) (v : String) (os : OSName) (e : Env) (w : World) :
    ∀ c ∈ (mklPathsFromPipVenv u v os e w).trace, callEnv c = scrub e := by
  cases u
  · intro c hc
    simp [mklPathsFromPipVenv] at hc
  · by_cases hz : w.installExit = 0
    · cases hd : discoverMklPaths os w.fs w.queryOk w.manifest
      · rw [venv_err_none v os e w hz hd]
        intro c hc
        simp at hc
        rcases hc with h | h <;> subst h <;> rfl
      · rw [venv_ok_some v os e w _ hz hd]
        intro c hc
        simp at hc
        rcases hc with h | h <;> subst h <;> rfl
    · rw [venv_install_fail v os e w hz]
      intro c hc
      simp at hc
      subst hc
      rfl

/-- The raised or returned outcome of `_mkl_paths_from_pip_venv` does not
depend on the ambient environment contents. -/
theorem venv_result_env_independent (u : Bool) (v : String) (os : OSName)
    (e e2 : Env) (w : World) :
    (mklPathsFromPipVenv u v os e w).result = (mklPathsFromPipVenv u v os e2 w).result := by
  cases u
  · rfl
  · by_cases hz : w.installExit = 0
    · cases hd : discoverMklPaths os w.fs w.queryOk w.manifest
      · rw [venv_err_none v os e w hz hd, venv_err_none v os e2 w hz hd]
      · rw [venv_ok_some v os e w _ hz hd, venv_ok_some v os e2 w _ hz hd]
    · rw [venv_install_fail v os e w hz, venv_install_fail v os e2 w hz]

/-- A trace of one install call and one query call holds one install. -/
theorem runCount_pair (c : String) (e1 e2 : Env) :
    runCount [Call.run c e1, Call.query e2] = 1 := rfl

/-- A trace of one install call holds one install. -/
theorem runCount_single (c : String) (e1 : Env) :
    runCount [Call.run c e1] = 1 := rfl

/-! Claims. -/

/-- A world where the install command exits 0 but the metadata query lists
no files, so discovery finds nothing. -/
def emptyManifestWorld : World :=
  ⟨"/usr/bin/python3", 0, "PIP-RAW-OUTPUT", true, [], []⟩

/-- An ambient environment carrying an operator-supplied installation root
in the most plausible override variable (`MKLROOT`, which the recipe
writes but never reads). -/
def overrideEnv : Env := [("MKLROOT", "/opt/mkl")]

/-- Claim C1, counterexample: with an explicit installation-root override
present in the environment (`MKLROOT=/opt/mkl`) and MKL enabled,
resolution still invokes the pip installer (the claim says it must hand
the root to discovery without running the installer), and the resulting
configuration error names the requested version, not the offending
path. -/
theorem c1_counterexample :
    (mklPathsFromPipVenv true "2025.3.0" OSName.linux overrideEnv emptyManifestWorld).trace
      = [Call.run (pipInstallCmd "/usr/bin/python3" "2025.3.0") overrideEnv,
          Call.query overrideEnv]
    ∧ (mklPathsFromPipVenv true "2025.3.0" OSName.linux overrideEnv emptyManifestWorld).result
      = Except.error (notFoundMsg "2025.3.0")
    ∧ containsSub "/opt/mkl" (notFoundMsg "2025.3.0") = false :=
  ⟨rfl, rfl, by decide⟩

/-- Claim C1, amended: the recipe consults no environment-variable
override at all — the outcome of `_mkl_paths_from_pip_venv` is
independent of the ambient environment contents — and whenever the MKL
option is enabled the pip installer is invoked exactly once, with no path
handed directly to discovery. -/
theorem c1_amended_no_override (u : Bool) (v : String) (os : OSName) (e e2 : Env)
    (w : World) (hu : u = true) :
    (mklPathsFromPipVenv u v os e w).result = (mklPathsFromPipVenv u v os e2 w).result
    ∧ runCount (mklPathsFromPipVenv u v os e w).trace = 1 := by
  constructor
  · exact venv_result_env_independent u v os e e2 w
  · subst hu
    by_cases hz : w.installExit = 0
    · cases hd : discoverMklPaths os w.fs w.queryOk w.manifest
      · rw [venv_err_none v os e w hz hd]
        exact runCount_pair _ _ _
      · rw [venv_ok_some v os e w _ hz hd]
        exact runCount_pair _ _ _
    · rw [venv_install_fail v os e w hz]
      exact runCount_single _ _

/-- Witness for the amended C1 at a concrete override environment. -/
theorem c1_amended_witness :
    (mklPathsFromPipVenv true "2025.3.0" OSName.linux [("MKLROOT", "/opt/mkl")]
        emptyManifestWorld).result
      = (mklPathsFromPipVenv true "2025.3.0" OSName.linux [] emptyManifestWorld).result
    ∧ runCount (mklPathsFromPipVenv true "2025.3.0" OSName.linux [("MKLROOT", "/opt/mkl")]
        emptyManifestWorld).trace = 1 :=
  c1_amended_no_override true "2025.3.0" OSName.linux [("MKLROOT", "/opt/mkl")] []
    emptyManifestWorld rfl

/-- Claim C2, counterexample: a Linux manifest containing the required
header `opt/include/foo.h` and versioned library `opt/lib/libfoo.so.1`
(and no other library artifacts) plus one extra header `z/include/odd.h`
listed first makes discovery return `none` — the first header candidate
diverts `includeDir` to `z/include`, `candidate_root` becomes `z`, and no
`z/lib` directory exists — even though `opt/lib` does exist on disk. The
claim demands `includeDir = opt/include`, `libDir = opt/lib`. -/
theorem c2_counterexample :
    discoverMklPaths OSName.linux [["lib", "opt"]] true
      [["odd.h", "include", "z"], ["foo.h", "include", "opt"], ["libfoo.so.1", "lib", "opt"]]
      = none
    ∧ discoverMklPaths OSName.linux [["lib", "opt"]] true
      [["odd.h", "include", "z"], ["foo.h", "include", "opt"], ["libfoo.so.1", "lib", "opt"]]
      ≠ some ⟨["opt"], ["include", "opt"], ["lib", "opt"], ["lib", "opt"]⟩ :=
  ⟨by decide, by decide⟩

/-- Claim C2, amended: on a Unix-like platform, for every manifest that
contains the header `.../include/foo.h` and the versioned shared library
`.../lib/libfoo.so.1`, in any order and with any further entries that are
not themselves header, library or dll candidates (lowercased suffix not
".h", ".so", ".dylib" or ".dll" — which `libfoo.so.1`, of suffix ".1",
itself satisfies, so `libDir` comes from the `candidate_root / "lib"`
existence fallback), discovery returns `includeDir = .../include`,
`libDir = .../lib` and `binDir = libDir`. -/
theorem c2_amended_sole_header (os : OSName) (pre : FsPath) (fs : List FsPath)
    (xs ys : List FsPath) (ho : os ≠ OSName.windows)
    (hfs : isDir fs ("lib" :: pre) = true)
    (hlib : ("libfoo.so.1" :: "lib" :: pre) ∈ xs ++ ys)
    (hxs : ∀ p ∈ xs, lowerString (suffixOf p) ∉ ([".h", ".so", ".dylib", ".dll"] : List String))
    (hys : ∀ p ∈ ys, lowerString (suffixOf p) ∉ ([".h", ".so", ".dylib", ".dll"] : List String)) :
    discoverMklPaths os fs true (xs ++ ("foo.h" :: "include" :: pre) :: ys)
      = some ⟨pre, "include" :: pre, "lib" :: pre, "lib" :: pre⟩ := by
  have hstep : scanStep os initScan ("foo.h" :: "include" :: pre)
      = ⟨some ("include" :: pre), none, none⟩ := by
    rw [scanStep, if_neg ho]
    rfl
  have hb1 : breakCond os (⟨some ("include" :: pre), none, none⟩ : ScanState) = false :=
    breakCond_no_lib os _ rfl
  have hloop : scanLoop os initScan (xs ++ ("foo.h" :: "include" :: pre) :: ys)
      = ⟨some ("include" :: pre), none, none⟩ := by
    rw [scanLoop_inert_block os ho xs hxs initScan _ (breakCond_no_lib os initScan rfl)]
    have hunf : scanLoop os initScan (("foo.h" :: "include" :: pre) :: ys)
        = if breakCond os (scanStep os initScan ("foo.h" :: "include" :: pre)) = true
          then scanStep os initScan ("foo.h" :: "include" :: pre)
          else scanLoop os (scanStep os initScan ("foo.h" :: "include" :: pre)) ys := rfl
    rw [hunf, hstep, hb1, if_neg (show ¬(false = true) by decide)]
    have htail := scanLoop_inert_block os ho ys hys
      ⟨some ("include" :: pre), none, none⟩ [] hb1
    rw [List.append_nil] at htail
    rw [htail]
    rfl
  rw [discoverMklPaths, if_pos rfl, hloop]
  simp [finishScan, finalInclude, finalLib, finalBin, candidateRoot, fallbackDir,
    parentOf, hfs, ho]

/-- Witness for the amended C2 at a concrete root and filesystem. -/
theorem c2_amended_witness :
    discoverMklPaths OSName.linux [["lib", "opt"]] true
      [["foo.h", "include", "opt"], ["libfoo.so.1", "lib", "opt"]]
      = some ⟨["opt"], ["include", "opt"], ["lib", "opt"], ["lib", "opt"]⟩ :=
  c2_amended_sole_header OSName.linux ["opt"] [["lib", "opt"]] []
    [["libfoo.so.1", "lib", "opt"]] (by decide) (by decide) (by decide)
    (by decide) (by decide)

/-- Claim C3, counterexample: for a header `a/b/foo.h` with no ancestor
directory named "include", the upward walk yields nothing rather than the
header's immediate parent `a/b`, and discovery (with a library present at
`a/lib` in the manifest but no `a/include` directory on disk) returns
`none` — the claimed fallback to the header's parent does not exist. -/
theorem c3_counterexample :
    walkToMarker ["include"] ["b", "a"] = none
    ∧ discoverMklPaths OSName.linux [] true
        [["foo.h", "b", "a"], ["libmkl.so", "lib", "a"]] = none :=
  ⟨rfl, rfl⟩

/-- Claim C3, amended: a manifest file with suffix ".h", seen while
`includeDir` is still unset, sets `includeDir` to the result of walking
its parent directories upward to the nearest directory whose lowercased
name is "include"; that walk yields nothing (leaving `includeDir` unset,
with no fallback to the header's immediate parent) exactly when no
ancestor directory is named "include". -/
theorem c3_amended_header_walk (os : OSName) (st : ScanState) (p : FsPath)
    (h1 : st.include_dir = none) (h2 : lowerString (suffixOf p) = ".h") :
    (scanStep os st p).include_dir = walkToMarker ["include"] (parentOf p)
    ∧ (walkToMarker ["include"] (parentOf p) = none ↔
        ∀ c ∈ parentOf p, lowerString c ≠ "include") := by
  constructor
  · rw [scanStep_inc]
    unfold stepInclude
    rw [if_pos ⟨h1, h2⟩]
  · simpa using walkToMarker_eq_none_iff ["include"] (parentOf p)

/-- Witness for the amended C3 at a concrete header path. -/
theorem c3_amended_witness :
    (scanStep OSName.linux initScan ["foo.h", "b", "a"]).include_dir
      = walkToMarker ["include"] ["b", "a"] :=
  (c3_amended_header_walk OSName.linux initScan ["foo.h", "b", "a"] rfl (by decide)).1

/-- Claim C4, counterexample: on Linux, a manifest whose first entry is a
dll named with "mkl" (`opt/bin/mkl_rt.dll`) followed by a header and a
shared object makes discovery succeed with `binDir = opt/bin` while
`libDir = opt/lib` — so on a Unix-like platform `binDir` need not equal
`libDir`. -/
theorem c4_counterexample :
    discoverMklPaths OSName.linux [] true
      [["mkl_rt.dll", "bin", "opt"], ["x.h", "include", "opt"], ["libmkl.so", "lib", "opt"]]
      = some ⟨["opt"], ["include", "opt"], ["lib", "opt"], ["bin", "opt"]⟩
    ∧ (["bin", "opt"] : FsPath) ≠ (["lib", "opt"] : FsPath) :=
  ⟨by decide, by decide⟩

/-- Claim C4, amended: on a Unix-like (non-Windows) platform, every
successful discovery over a manifest holding no ".dll" entry returns
`binDir` equal to `libDir` (the ".dll" branch of the loop is the only way
a distinct `binDir` can arise on Unix). -/
theorem c4_amended_bin_eq_lib (os : OSName) (fs : List FsPath) (qok : Bool)
    (m : List FsPath) (loc : Located) (ho : os ≠ OSName.windows)
    (hdll : ∀ p ∈ m, lowerString (suffixOf p) ≠ ".dll")
    (h : discoverMklPaths os fs qok m = some loc) :
    loc.binDir = loc.libDir := by
  cases qok with
  | false => simp [discoverMklPaths] at h
  | true =>
      rw [discoverMklPaths, if_pos rfl] at h
      have hbin : (scanLoop os initScan m).bin_dir = none :=
        scanLoop_bin_none os m initScan hdll rfl
      have hfb : finalBin os fs (scanLoop os initScan m)
          = finalLib fs (scanLoop os initScan m) := by
        unfold finalBin
        rw [hbin]
        exact if_neg (fun hc => ho hc.1)
      unfold finishScan at h
      rcases hI : finalInclude fs (scanLoop os initScan m) with _ | i <;> rw [hI] at h
      · simp at h
      · rcases hL : finalLib fs (scanLoop os initScan m) with _ | l <;> rw [hL] at h
        · simp at h
        · simp only [Option.some.injEq] at h
          subst h
          show (finalBin os fs (scanLoop os initScan m)).getD l = l
          rw [hfb, hL]
          rfl

/-- Witness for the amended C4 at a concrete dll-free manifest. -/
theorem c4_amended_witness :
    (Located.mk ["r"] ["include", "r"] ["lib", "r"] ["lib", "r"]).binDir
      = (Located.mk ["r"] ["include", "r"] ["lib", "r"] ["lib", "r"]).libDir :=
  c4_amended_bin_eq_lib OSName.linux [] true
    [["x.h", "include", "r"], ["libmkl.so", "lib", "r"]]
    (Located.mk ["r"] ["include", "r"] ["lib", "r"] ["lib", "r"])
    (by decide) (by decide) (by decide)

/-- Claim C5, counterexample: when the fresh-process query after a
successful install still shows the dependency absent, the raised error
message is exactly the not-found message carrying the requested version —
it does not carry the raw tool output (here "PIP-RAW-OUTPUT" is the
install output and is not contained in the message). -/
theorem c5_counterexample :
    (mklPathsFromPipVenv true "2025.3.0" OSName.linux [] emptyManifestWorld).result
      = Except.error (notFoundMsg "2025.3.0")
    ∧ containsSub emptyManifestWorld.installOutput (notFoundMsg "2025.3.0") = false
    ∧ runCount (mklPathsFromPipVenv true "2025.3.0" OSName.linux [] emptyManifestWorld).trace
      = 1 :=
  ⟨rfl, by decide, rfl⟩

/-- Claim C5, amended: if the install command exits non-zero, or the
fresh-process query afterward still reports the dependency absent, the
resolution fails with an error built from the requested version string
(the non-zero-exit error carries the failing pip command, the post-install
error the not-found message; neither embeds the raw tool output), and the
install is issued exactly once — no automatic retry. -/
theorem c5_amended_fatal (v : String) (os : OSName) (e : Env) (w : World)
    (h : w.installExit ≠ 0 ∨ discoverMklPaths os w.fs w.queryOk w.manifest = none) :
    ((mklPathsFromPipVenv true v os e w).result
        = Except.error (runFailureMsg w.installExit (pipInstallCmd w.pythonExe v))
      ∨ (mklPathsFromPipVenv true v os e w).result = Except.error (notFoundMsg v))
    ∧ runCount (mklPathsFromPipVenv true v os e w).trace = 1 := by
  by_cases hz : w.installExit = 0
  · have hd : discoverMklPaths os w.fs w.queryOk w.manifest = none := by
      cases h with
      | inl hnz => exact absurd hz hnz
      | inr hd => exact hd
    rw [venv_err_none v os e w hz hd]
    exact ⟨Or.inr rfl, runCount_pair _ _ _⟩
  · rw [venv_install_fail v os e w hz]
    exact ⟨Or.inl rfl, runCount_single _ _⟩

/-- Witness for the amended C5 at a concrete failing world. -/
theorem c5_amended_witness :
    ((mklPathsFromPipVenv true "2025.3.0" OSName.linux [] emptyManifestWorld).result
        = Except.error (runFailureMsg emptyManifestWorld.installExit
            (pipInstallCmd emptyManifestWorld.pythonExe "2025.3.0"))
      ∨ (mklPathsFromPipVenv true "2025.3.0" OSName.linux [] emptyManifestWorld).result
        = Except.error (notFoundMsg "2025.3.0"))
    ∧ runCount (mklPathsFromPipVenv true "2025.3.0" OSName.linux [] emptyManifestWorld).trace
      = 1 :=
  c5_amended_fatal "2025.3.0" OSName.linux [] emptyManifestWorld (Or.inr rfl)

/-- Claim C6: `PYTHONPATH` and `PYTHONHOME` are absent from the
environment view used by every recorded subprocess call (install and
metadata query), the original environment is restored unconditionally
after the call on every control path, and no other variable differs
between the scrubbed view and the original environment. -/
theorem c6_scoped_scrub (u : Bool) (v : String) (os : OSName) (e : Env) (w : World) :
    (∀ c ∈ (mklPathsFromPipVenv u v os e w).trace, callEnv c = scrub e)
    ∧ (mklPathsFromPipVenv u v os e w).finalEnv = e
    ∧ envLookup "PYTHONPATH" (scrub e) = none
    ∧ envLookup "PYTHONHOME" (scrub e) = none
    ∧ ∀ k, k ≠ "PYTHONPATH" → k ≠ "PYTHONHOME" →
        envLookup k (scrub e) = envLookup k e :=
  ⟨venv_trace_env u v os e w, venv_finalEnv u v os e w,
    envLookup_scrub_scrubbed _ (by decide) e,
    envLookup_scrub_scrubbed _ (by decide) e,
    fun k h1 h2 => envLookup_scrub_of_ne k e h1 h2⟩

/-- Witness for C6: a third variable (`PATH`) is untouched by scrubbing a
concrete environment. -/
theorem c6_witness :
    envLookup "PATH" (scrub [("PYTHONPATH", "/x"), ("PATH", "/usr/bin")])
      = envLookup "PATH" [("PYTHONPATH", "/x"), ("PATH", "/usr/bin")] :=
  (c6_scoped_scrub true "2025.3.0" OSName.linux [("PYTHONPATH", "/x"), ("PATH", "/usr/bin")]
      emptyManifestWorld).2.2.2.2 "PATH" (by decide) (by decide)

/-- Claim C7: every successful discovery result was produced with both a
header directory and a library directory established (after fallbacks);
its `root` is the parent of `includeDir`, and all four fields are
populated by construction — when either directory cannot be established
the guard makes `_discover_mkl_paths` return `None`, never a partial
result. -/
theorem c7_success_requires_both (os : OSName) (fs : List FsPath) (qok : Bool)
    (m : List FsPath) (loc : Located)
    (h : discoverMklPaths os fs qok m = some loc) :
    finalInclude fs (scanLoop os initScan m) = some loc.includeDir
    ∧ finalLib fs (scanLoop os initScan m) = some loc.libDir
    ∧ loc.root = parentOf loc.includeDir := by
  cases qok with
  | false => simp [discoverMklPaths] at h
  | true =>
      rw [discoverMklPaths, if_pos rfl] at h
      unfold finishScan at h
      rcases hI : finalInclude fs (scanLoop os initScan m) with _ | i <;> rw [hI] at h
      · simp at h
      · rcases hL : finalLib fs (scanLoop os initScan m) with _ | l <;> rw [hL] at h
        · simp at h
        · simp only [Option.some.injEq] at h
          subst h
          exact ⟨rfl, rfl, rfl⟩

/-- Witness for C7 at a concrete successful discovery. -/
theorem c7_witness :
    finalInclude []
        (scanLoop OSName.linux initScan [["x.h", "include", "r"], ["libx.so", "lib", "r"]])
      = some ["include", "r"]
    ∧ finalLib []
        (scanLoop OSName.linux initScan [["x.h", "include", "r"], ["libx.so", "lib", "r"]])
      = some ["lib", "r"]
    ∧ (["r"] : FsPath) = parentOf ["include", "r"] :=
  c7_success_requires_both OSName.linux [] true
    [["x.h", "include", "r"], ["libx.so", "lib", "r"]]
    ⟨["r"], ["include", "r"], ["lib", "r"], ["lib", "r"]⟩ (by decide)

/-- Claim C8: with the MKL option disabled, `_mkl_paths_from_pip_venv`
returns `None` immediately: no pip install, no metadata query (empty
subprocess trace), and the environment untouched. -/
theorem c8_disabled_noop (v : String) (os : OSName) (e : Env) (w : World) :
    mklPathsFromPipVenv false v os e w = ⟨Except.ok none, [], e⟩ := rfl

/-- The Windows scenario-D manifest: a header under `Library/include` and
a runtime dll under `Library/bin`, with no ".lib" entry anywhere. -/
def winNoLibManifest : List FsPath :=
  [["foo.h", "include", "Library", "opt"], ["foo.dll", "bin", "Library", "opt"]]

/-- Claim C9, counterexample: on Windows, the scenario-D manifest (header
plus runtime dll, no ".lib") makes discovery SUCCEED whenever a directory
named `lib` exists next to `include` on disk — the `candidate_root/"lib"`
existence fallback fills `libDir` with no library artifact at all, so a
runtime-dll-only manifest is not always rejected. -/
theorem c9_counterexample :
    discoverMklPaths OSName.windows
      [["lib", "Library", "opt"], ["bin", "Library", "opt"]] true winNoLibManifest
      = some ⟨["Library", "opt"], ["include", "Library", "opt"], ["lib", "Library", "opt"],
          ["bin", "Library", "opt"]⟩ := by decide

/-- Claim C9, amended: on Windows, the scenario-D manifest (header
`.../Library/include/foo.h` and runtime dll `.../Library/bin/foo.dll`,
no ".lib") yields `NotFound` provided no directory named `lib` exists
under `.../Library` on disk; the dll never sets `libDir` itself. -/
theorem c9_amended_notfound (pre : FsPath) (fs : List FsPath)
    (h : isDir fs ("lib" :: "Library" :: pre) = false) :
    discoverMklPaths OSName.windows fs true
      ["foo.h" :: "include" :: "Library" :: pre, "foo.dll" :: "bin" :: "Library" :: pre]
      = none := by
  have hl : discoverMklPaths OSName.windows fs true
      ["foo.h" :: "include" :: "Library" :: pre, "foo.dll" :: "bin" :: "Library" :: pre]
      = finishScan OSName.windows fs
          ⟨some ("include" :: "Library" :: pre), none, none⟩ := rfl
  rw [hl]
  simp [finishScan, finalInclude, finalLib, candidateRoot, fallbackDir, parentOf, h]

/-- Witness for the amended C9 at a concrete root with no lib directory. -/
theorem c9_amended_witness :
    discoverMklPaths OSName.windows [] true
      [["foo.h", "include", "Library", "opt"], ["foo.dll", "bin", "Library", "opt"]]
      = none :=
  c9_amended_notfound ["opt"] [] (by decide)

/-- Claim C10: in the Windows branch of the manifest loop, `lib_dir` can
only change at a file whose lowercased suffix is ".lib" and whose
lowercased name contains "mkl", `bin_dir` only at a ".dll" whose name
contains "mkl"; and when those library conditions hold with `lib_dir`
unset, the file does set `lib_dir` to its upward "lib" walk — so a
well-placed ".lib" lacking "mkl" in its name is never classified. -/
theorem c10_windows_classification (st : ScanState) (p : FsPath) :
    ((scanStep OSName.windows st p).lib_dir ≠ st.lib_dir →
        lowerString (suffixOf p) = ".lib"
        ∧ containsSub "mkl" (lowerString (nameOf p)) = true)
    ∧ ((scanStep OSName.windows st p).bin_dir ≠ st.bin_dir →
        lowerString (suffixOf p) = ".dll"
        ∧ containsSub "mkl" (lowerString (nameOf p)) = true)
    ∧ (st.lib_dir = none → lowerString (suffixOf p) = ".lib" →
        containsSub "mkl" (lowerString (nameOf p)) = true →
        (scanStep OSName.windows st p).lib_dir = walkToMarker ["lib"] (parentOf p)) := by
  refine ⟨?_, ?_, ?_⟩
  · intro hne
    rw [scanStep, if_pos rfl, stepBinDll_lib] at hne
    unfold stepLibWin at hne
    by_cases hc : ((stepInclude st p).lib_dir = none
        ∧ lowerString (suffixOf p) = ".lib"
        ∧ containsSub "mkl" (lowerString (nameOf p)) = true)
    · exact ⟨hc.2.1, hc.2.2⟩
    · rw [if_neg hc, stepInclude_lib] at hne
      exact absurd rfl hne
  · intro hne
    rw [scanStep, if_pos rfl] at hne
    unfold stepBinDll at hne
    by_cases hc : ((stepLibWin (stepInclude st p) p).bin_dir = none
        ∧ lowerString (suffixOf p) = ".dll"
        ∧ containsSub "mkl" (lowerString (nameOf p)) = true)
    · exact ⟨hc.2.1, hc.2.2⟩
    · rw [if_neg hc, stepLibWin_bin, stepInclude_bin] at hne
      exact absurd rfl hne
  · intro h0 hsuf hmkl
    rw [scanStep, if_pos rfl, stepBinDll_lib]
    unfold stepLibWin
    rw [if_pos ⟨by rw [stepInclude_lib]; exact h0, hsuf, hmkl⟩]

/-- Witness for C10: a properly named mkl import library is classified. -/
theorem c10_witness :
    lowerString (suffixOf ["mkl_core.lib", "lib", "opt"]) = ".lib"
    ∧ containsSub "mkl" (lowerString (nameOf ["mkl_core.lib", "lib", "opt"])) = true :=
  (c10_windows_classification initScan ["mkl_core.lib", "lib", "opt"]).1 (by decide)

end PycanhaMkl
